import Mathlib

/-!
Verification development for the mcrawfs repository.

Part 1 embeds the DNG writer of src/thirdparty/tinydng (tiny_dng_writer.cpp,
tiny_dng_writer.h) as executable Lean definitions: byte strings are lists of
natural numbers below 256, the mutable DNGImage object is a structure threaded
through the setters, and the host is taken to be little-endian (so, as in the
constructor, swap_endian_ equals dng_big_endian_).  Assertions compile to
no-ops, as in a release build.

Part 2 models the motioncam Decoder.  Only the header
src/lib/include/motioncam/Decoder.hpp is in the repository, so the container
layout, the index builder with its recovery scan, and the audio chunk loader
are modelled from the spec (sections 3, 4 and 6 of spec.md); each such
definition carries a doc comment saying so.
-/

namespace Tinydngwriter

/-- One IFD tag record as stored by WriteTIFFTag (struct IFDTag of
tiny_dng_writer.h): tag, type, count and the 4-byte offset-or-value slot. -/
structure IFDTag where
  tag : Nat
  type : Nat
  count : Nat
  offset_or_value : Nat
deriving DecidableEq

/-- Truncation to an unsigned 32-bit value, the static casts of the source. -/
def u32 (n : Nat) : Nat := n % 4294967296

/-- Truncation to an unsigned 16-bit value. -/
def u16 (n : Nat) : Nat := n % 65536

/-- Byte swap of a 16-bit value, swap2 of tiny_dng_writer.cpp. -/
def bswap16 (n : Nat) : Nat := n % 256 * 256 + n / 256 % 256

/-- Byte swap of a 32-bit value, swap4 of tiny_dng_writer.cpp. -/
def bswap32 (n : Nat) : Nat :=
  n % 256 * 16777216 + n / 256 % 256 * 65536 + n / 65536 % 256 * 256 + n / 16777216 % 256

/-- Write1: one byte appended to the stream. -/
def write1 (v : Nat) : List Nat := [v % 256]

/-- Write2: a 16-bit value, byte-swapped when swap holds, written as the two
bytes a little-endian host stores it with. -/
def write2 (swap : Bool) (v : Nat) : List Nat :=
  let x := if swap then bswap16 (u16 v) else u16 v
  [x % 256, x / 256 % 256]

/-- Write4: a 32-bit value, byte-swapped when swap holds, written as the four
bytes a little-endian host stores it with. -/
def write4 (swap : Bool) (v : Nat) : List Nat :=
  let x := if swap then bswap32 (u32 v) else u32 v
  [x % 256, x / 256 % 256, x / 65536 % 256, x / 16777216 % 256]

/-- TIFF header size, kHeaderSize of tiny_dng_writer.cpp. -/
def kHeaderSize : Nat := 8

/-- Size in bytes of one element of a TIFF type: typesize_table indexed with
the expression (type) < 14 ? (type) : 0 of the source. -/
def typeSize (t : Nat) : Nat :=
  if t < 14 then [1, 1, 1, 2, 4, 8, 1, 1, 2, 4, 8, 4, 8, 4].getD t 1 else 1

/-- WriteTIFFTag of tiny_dng_writer.cpp.  data holds the bytes at the source
pointer (for string setters the text plus its terminating NUL); dataOut is the
data_os_ stream, none when the caller passes NULL.  Returns the C++ boolean
result, the new tag list and the new data stream.  The len greater than 4
branch records an offset into the stream; smaller lengths embed the first
bytes of data read back as a little-endian host integer; len of 0 or 3 hits
assert(0), a no-op in release, leaving the embedded value 0. -/
def WriteTIFFTag (tag typ count : Nat) (data : List Nat)
    (tags : List IFDTag) (dataOut : Option (List Nat)) :
    Bool × List IFDTag × Option (List Nat) :=
  let len := count * typeSize typ
  if 4 < len then
    match dataOut with
    | none => (false, tags, dataOut)
    | some dos =>
        let ifd : IFDTag := ⟨u16 tag, u16 typ, u32 count, u32 (dos.length + kHeaderSize)⟩
        (true, tags ++ [ifd], some (dos ++ data.take len))
  else
    let v : Nat :=
      if len = 1 then data.getD 0 0
      else if len = 2 then data.getD 0 0 + 256 * data.getD 1 0
      else if len = 4 then
        data.getD 0 0 + 256 * data.getD 1 0 + 65536 * data.getD 2 0 + 16777216 * data.getD 3 0
      else 0
    (true, tags ++ [⟨u16 tag, u16 typ, u32 count, v⟩], dataOut)

/-- The DNGImage object of tiny_dng_writer.h with the fields the embedded
operations touch, field names as in the source. -/
structure DNGImage where
  data_os : List Nat
  dng_big_endian : Bool
  swap_endian : Bool
  num_fields : Nat
  samples_per_pixels : Nat
  bits_per_samples : List Nat
  data_strip_offset : Nat
  data_strip_bytes : Nat
  err : String
  ifd_tags : List IFDTag
deriving DecidableEq

/-- The DNGImage constructor: big-endian DNG by default, hence (on the
little-endian host) swap_endian_ true. -/
def DNGImage.init : DNGImage :=
  { data_os := [], dng_big_endian := true, swap_endian := true, num_fields := 0,
    samples_per_pixels := 0, bits_per_samples := [], data_strip_offset := 0,
    data_strip_bytes := 0, err := "", ifd_tags := [] }

/-- Diagnostic text SetSamplesPerPixel appends for an out-of-range value. -/
def sppMsg (value : Nat) : String :=
  "Samples per pixel must be less than or equal to 4, but got " ++ toString value ++ ".\n"

/-- DNGImage::SetSamplesPerPixel: values above 4 are rejected with a
diagnostic; otherwise the SAMPLES_PER_PIXEL (277) short tag is written and the
value recorded in samples_per_pixels_ for later validation. -/
def DNGImage.SetSamplesPerPixel (img : DNGImage) (value : Nat) : Bool × DNGImage :=
  if 4 < value then
    (false, { img with err := img.err ++ sppMsg value })
  else
    let r := WriteTIFFTag 277 3 1 [value % 256, value / 256 % 256] img.ifd_tags (some img.data_os)
    if r.1 then
      (true, { img with ifd_tags := r.2.1, data_os := (r.2.2).getD img.data_os,
                        samples_per_pixels := value, num_fields := img.num_fields + 1 })
    else
      (false, { img with err := img.err ++ "Failed to write `TIFFTAG_SAMPLES_PER_PIXEL` tag.\n" })

/-- DNGImage::SetBitsPerSample: num_samples is the constant 1 and the single
value the constant 16.  Fails when samples_per_pixels_ is 0 (SetSamplesPerPixel
not called) or differs from 1; otherwise writes the BITS_PER_SAMPLE (258)
short tag (value byte-swapped in place before the write, as in the source) and
records bits_per_samples_ = [16]. -/
def DNGImage.SetBitsPerSample (img : DNGImage) : Bool × DNGImage :=
  if img.samples_per_pixels = 0 then
    (false, { img with err := img.err ++
      "SetSamplesPerPixel() must be called before SetBitsPerSample().\n" })
  else if img.samples_per_pixels ≠ 1 then
    (false, { img with err := img.err ++
      ("Samples per pixel mismatch. 1 is given for SetBitsPerSample(), but SamplesPerPixel is set to "
        ++ toString img.samples_per_pixels ++ "\n") })
  else
    let v := if img.swap_endian then bswap16 16 else 16
    let r := WriteTIFFTag 258 3 1 [v % 256, v / 256 % 256] img.ifd_tags (some img.data_os)
    if r.1 then
      (true, { img with ifd_tags := r.2.1, data_os := (r.2.2).getD img.data_os,
                        bits_per_samples := [16], num_fields := img.num_fields + 1 })
    else (false, img)

/-- DNGImage::SetImageDescription: count is the 32-bit cast of length+1; an
empty string (count below 2) or a count above 1024*1024 is rejected without
writing a tag; otherwise the IMAGEDESCRIPTION (270) ASCII tag is written with
the first count bytes of the text plus its NUL. -/
def DNGImage.SetImageDescription (img : DNGImage) (ascii : List Nat) : Bool × DNGImage :=
  let count := u32 (ascii.length + 1)
  if count < 2 then (false, img)
  else if 1048576 < count then (false, img)
  else
    let r := WriteTIFFTag 270 2 count (ascii ++ [0]) img.ifd_tags (some img.data_os)
    if r.1 then
      (true, { img with ifd_tags := r.2.1, data_os := (r.2.2).getD img.data_os,
                        num_fields := img.num_fields + 1 })
    else (false, img)

/-- DNGImage::SetUniqueCameraModel: as SetImageDescription but writing the
UNIQUE_CAMERA_MODEL (50708) ASCII tag. -/
def DNGImage.SetUniqueCameraModel (img : DNGImage) (ascii : List Nat) : Bool × DNGImage :=
  let count := u32 (ascii.length + 1)
  if count < 2 then (false, img)
  else if 1048576 < count then (false, img)
  else
    let r := WriteTIFFTag 50708 2 count (ascii ++ [0]) img.ifd_tags (some img.data_os)
    if r.1 then
      (true, { img with ifd_tags := r.2.1, data_os := (r.2.2).getD img.data_os,
                        num_fields := img.num_fields + 1 })
    else (false, img)

/-- DNGImage::SetSoftware: as SetImageDescription but with the 4096 bound and
the SOFTWARE (305) ASCII tag. -/
def DNGImage.SetSoftware (img : DNGImage) (ascii : List Nat) : Bool × DNGImage :=
  let count := u32 (ascii.length + 1)
  if count < 2 then (false, img)
  else if 4096 < count then (false, img)
  else
    let r := WriteTIFFTag 305 2 count (ascii ++ [0]) img.ifd_tags (some img.data_os)
    if r.1 then
      (true, { img with ifd_tags := r.2.1, data_os := (r.2.2).getD img.data_os,
                        num_fields := img.num_fields + 1 })
    else (false, img)

/-- DNGImage::SetImageData: a non-empty pixel buffer is appended to data_os_,
its position and length recorded, and the STRIP_BYTE_COUNTS (279) long tag
written with a NULL data_out (the embedded-value branch). -/
def DNGImage.SetImageData (img : DNGImage) (bytes : List Nat) : Bool × DNGImage :=
  if bytes.length < 1 then (false, img)
  else
    let img1 := { img with data_strip_offset := img.data_os.length,
                           data_strip_bytes := bytes.length,
                           data_os := img.data_os ++ bytes }
    let n := u32 bytes.length
    let r := WriteTIFFTag 279 4 1 [n % 256, n / 256 % 256, n / 65536 % 256, n / 16777216 % 256]
      img1.ifd_tags none
    if r.1 then (true, { img1 with ifd_tags := r.2.1, num_fields := img1.num_fields + 1 })
    else (false, img1)

/-- Byte-swap of the first n complete g-byte groups of a list, the in-place
strip swapping loops of WriteDataToStream. -/
def swapNGroups (g : Nat) : Nat → List Nat → List Nat
  | 0, l => l
  | n + 1, l => (l.take g).reverse ++ swapNGroups g n (l.drop g)

/-- The strip region byte swap applied to the copy of data_os_. -/
def applySwap (g n off : Nat) (data : List Nat) : List Nat :=
  data.take off ++ swapNGroups g n (data.drop off)

/-- DNGImage::WriteDataToStream: validates that data exists, that
bits_per_samples_ is set, non-zero, and samples_per_pixels_ non-zero, then
writes data_os_ (with the strip bytes endian-swapped for 16, 32 or 64 bits per
sample when swap_endian_ holds).  Returns the C++ boolean, the image with its
mutable err_ possibly extended, and the bytes written to the stream. -/
def DNGImage.WriteDataToStream (img : DNGImage) : Bool × DNGImage × List Nat :=
  if img.data_os.length = 0 then
    (false, { img with err := img.err ++ "Empty IFD data and image data.\n" }, [])
  else if img.bits_per_samples.isEmpty then
    (false, { img with err := img.err ++ "BitsPerSample is not set\n" }, [])
  else
    match img.bits_per_samples.findIdx? (· = 0) with
    | some i =>
        (false, { img with err := img.err ++ toString i ++ "\x27th BitsPerSample is zero" }, [])
    | none =>
        if img.samples_per_pixels = 0 then
          (false, { img with err := img.err ++ "SamplesPerPixels is not set or zero." }, [])
        else
          let data := img.data_os
          let out :=
            if img.data_strip_bytes = 0 then data
            else
              let bps := img.bits_per_samples.getD 0 0
              if img.swap_endian then
                if bps = 16 then applySwap 2 (img.data_strip_bytes / 2) img.data_strip_offset data
                else if bps = 32 then
                  applySwap 4 (img.data_strip_bytes / 4) img.data_strip_offset data
                else if bps = 64 then
                  applySwap 8 (img.data_strip_bytes / 8) img.data_strip_offset data
                else data
              else data
          (true, img, out)

/-- The STRIP_OFFSET (273) tag WriteIFDToStream adds before sorting. -/
def stripOffsetTag (strip_offset : Nat) : IFDTag := ⟨273, 4, 1, u32 (strip_offset + kHeaderSize)⟩

/-- Relation std::sort is given in WriteIFDToStream (IFDComparator). -/
abbrev tagLE (a b : IFDTag) : Prop := a.tag ≤ b.tag

instance : DecidableRel tagLE := fun a b => Nat.decLe a.tag b.tag

instance : IsTotal IFDTag tagLE := ⟨fun a b => Nat.le_total a.tag b.tag⟩

instance : IsTrans IFDTag tagLE := ⟨fun _ _ _ h1 h2 => Nat.le_trans h1 h2⟩

/-- The 12 bytes (or, for a length of 0 or 3, the 8 bytes a release build
leaves after the silent assert(0)) one IFD entry contributes to the stream. -/
def ifdEntryBytes (swap : Bool) (dbo : Nat) (ifd : IFDTag) : List Nat :=
  write2 swap ifd.tag ++ write2 swap ifd.type ++ write4 swap ifd.count ++
  (let len := ifd.count * typeSize ifd.type
   if 4 < len then write4 swap (u32 (ifd.offset_or_value + dbo))
   else if len = 1 then write1 (ifd.offset_or_value % 256) ++ [0, 0, 0]
   else if len = 2 then write2 swap (ifd.offset_or_value % 65536) ++ write2 swap 0
   else if len = 4 then write4 swap (u32 ifd.offset_or_value)
   else [])

/-- DNGImage::WriteIFDToStream: fails when no tags were written; otherwise
appends the STRIP_OFFSET tag, sorts by tag id, and writes the 16-bit entry
count followed by every entry. -/
def DNGImage.WriteIFDToStream (dbo strip_offset : Nat) (img : DNGImage) :
    Bool × DNGImage × List Nat :=
  if img.num_fields = 0 ∨ img.ifd_tags.length < 1 then
    (false, { img with err := img.err ++ "No TIFF Tags.\n" }, [])
  else
    let tags := List.insertionSort tagLE (img.ifd_tags ++ [stripOffsetTag strip_offset])
    let body := tags.foldr (fun t acc => ifdEntryBytes img.swap_endian dbo t ++ acc) []
    (true, img, write2 img.swap_endian (u16 tags.length) ++ body)

/-- The 4-byte TIFF version header, WriteTIFFVersionHeader. -/
def writeTIFFVersionHeader (bigEndian : Bool) : List Nat :=
  if bigEndian then [0x4d, 0x4d, 0x0, 0x2a] else [0x49, 0x49, 0x2a, 0x0]

/-- Outcome of DNGWriter::WriteToFile: the returned buffer (none for the NULL
return), what was stored through the err pointer, and what was stored through
the count pointer (none when the source leaves it unwritten). -/
structure WriteResult where
  buffer : Option (List Nat)
  errOut : Option String
  countOut : Option Nat
deriving DecidableEq

/-- DNGWriter::WriteToFile on a little-endian host (the writer's swap_endian_
equals its big_endian argument).  errNonNull says whether the caller passed a
non-null err pointer; count is written only on the success path, exactly as in
the source.  The version header write cannot fail, so that branch of the
source is not reachable. -/
def DNGWriter.WriteToFile (bigEndian : Bool) (img : DNGImage) (errNonNull : Bool) :
    WriteResult :=
  let header := writeTIFFVersionHeader bigEndian ++
    write4 bigEndian (u32 (kHeaderSize + img.data_os.length))
  let rd := img.WriteDataToStream
  if rd.1 then
    let ri := DNGImage.WriteIFDToStream 0 img.data_strip_offset rd.2.1
    if ri.1 then
      let out := header ++ rd.2.2 ++ ri.2.2 ++ [0, 0, 0, 0]
      { buffer := some out, errOut := none, countOut := some out.length }
    else
      { buffer := none,
        errOut := if errNonNull then some ("Failed to write IFD: " ++ ri.2.1.err) else none,
        countOut := none }
  else
    { buffer := none,
      errOut := if errNonNull then some ("Failed to write image data: " ++ rd.2.1.err) else none,
      countOut := none }

/-- Setter calls a client can make on one DNGImage, used to speak about call
histories (the boolean results are discarded, as a caller free to ignore them
would). -/
inductive DNGOp where
  | samplesPerPixel (v : Nat)
  | bitsPerSample
  | imageDescription (s : List Nat)
  | uniqueCameraModel (s : List Nat)
  | software (s : List Nat)
  | imageData (bytes : List Nat)
deriving DecidableEq

/-- State reached after one call. -/
def applyOp (img : DNGImage) : DNGOp → DNGImage
  | .samplesPerPixel v => (img.SetSamplesPerPixel v).2
  | .bitsPerSample => img.SetBitsPerSample.2
  | .imageDescription s => (img.SetImageDescription s).2
  | .uniqueCameraModel s => (img.SetUniqueCameraModel s).2
  | .software s => (img.SetSoftware s).2
  | .imageData b => (img.SetImageData b).2

/-- State of a fresh DNGImage after a call history. -/
def runOps (ops : List DNGOp) : DNGImage := List.foldl applyOp DNGImage.init ops

/-- Samples-per-pixel value recorded by the last successful SetSamplesPerPixel
call of a history (0 when none succeeded). -/
def lastSppVal (ops : List DNGOp) : Nat :=
  List.foldl
    (fun acc op => match op with
      | DNGOp.samplesPerPixel v => if v ≤ 4 then v else acc
      | _ => acc) 0 ops

end Tinydngwriter

namespace Motioncam

/-- Modelled from the spec: the error taxonomy of section 7; the Decoder.cpp
implementation signalling these via the MotionCamException hierarchy is not in
the repository. -/
inductive DecErr where
  | ioError
  | corruptContainer
  | frameNotFound
  | unsupportedCodec
  | codecFailure
  | sizeMismatch
deriving DecidableEq

/-- Modelled from the spec: the record kinds of the Offset Table Entry of
section 3. -/
inductive RecordKind where
  | frame
  | audio
  | metadata
deriving DecidableEq

/-- Modelled from the spec: the Offset Table Entry of section 3 (the
BufferOffset type of Container.hpp, which is not in the repository): byte
position of the payload, on-disk length, kind, codec tag and timestamp. -/
structure BufferOffset where
  offset : Nat
  size : Nat
  kind : RecordKind
  codec : Nat
  timestamp : Int
deriving DecidableEq

/-- Timestamp of Decoder.hpp, an int64_t. -/
abbrev Timestamp := Int

/-- AudioChunk of Decoder.hpp: a timestamp and its 16-bit samples. -/
abbrev AudioChunk := Timestamp × List Int

/-- Modelled from the spec: one raw buffer of the container of section 6, as
the capture device wrote it (kind, codec tag, timestamp and compressed
payload); its on-disk layout is serRecord. -/
structure RawRecord where
  kind : RecordKind
  codec : Nat
  timestamp : Int
  payload : List Nat
deriving DecidableEq

/-- Byte encoding a record kind in the local record marker. -/
def kindCode : RecordKind → Nat
  | .frame => 0
  | .audio => 1
  | .metadata => 2

/-- Record kind decoded from a marker byte. -/
def kindOf (n : Nat) : RecordKind :=
  if n = 0 then RecordKind.frame else if n = 1 then RecordKind.audio else RecordKind.metadata

/-- Two-complement encoding of an int64 timestamp into 0 .. 2^64 - 1. -/
def tsEnc (t : Int) : Nat := (t.emod 18446744073709551616).toNat

/-- Int64 value read back from its unsigned 64-bit representation. -/
def tsDec (n : Nat) : Int :=
  if n < 9223372036854775808 then (n : Int) else (n : Int) - 18446744073709551616

/-- Modelled from the spec: size of the fixed container header of section 6
(magic and version); the concrete width is a documented implementation
choice, as section 9 directs. -/
def headerSize : Nat := 6

/-- Modelled from the spec: the fixed header bytes, a 4-byte magic and a
2-byte version. -/
def headerBytes : List Nat := [77, 67, 82, 65, 1, 0]

/-- Size of the local record marker: kind, codec, 4-byte payload size,
8-byte timestamp. -/
def markerSize : Nat := 14

/-- Wellformedness of a record the capture device can actually write: the
payload length fits the 4-byte size field and the timestamp fits an int64. -/
def WfRecord (r : RawRecord) : Prop :=
  r.payload.length < 4294967296 ∧
    -(9223372036854775808 : Int) ≤ r.timestamp ∧ r.timestamp < 9223372036854775808

instance (r : RawRecord) : Decidable (WfRecord r) := by
  unfold WfRecord; infer_instance

/-- Modelled from the spec: on-disk bytes of one raw buffer, the local record
marker (kind, codec, payload size little-endian, timestamp little-endian)
followed by the payload. -/
def serRecord (r : RawRecord) : List Nat :=
  kindCode r.kind :: r.codec ::
  r.payload.length % 256 :: r.payload.length / 256 % 256 ::
  r.payload.length / 65536 % 256 :: r.payload.length / 16777216 % 256 ::
  tsEnc r.timestamp % 256 :: tsEnc r.timestamp / 256 % 256 ::
  tsEnc r.timestamp / 65536 % 256 :: tsEnc r.timestamp / 16777216 % 256 ::
  tsEnc r.timestamp / 4294967296 % 256 :: tsEnc r.timestamp / 1099511627776 % 256 ::
  tsEnc r.timestamp / 281474976710656 % 256 :: tsEnc r.timestamp / 72057594037927936 % 256 ::
  r.payload

/-- Concatenated raw buffers of a record sequence. -/
def serializeRecs : List RawRecord → List Nat
  | [] => []
  | r :: rs => serRecord r ++ serializeRecs rs

/-- Modelled from the spec: the byte image of a container the capture device
never finalized (header then raw buffers, no trailing index). -/
def unfinalized (rs : List RawRecord) : List Nat := headerBytes ++ serializeRecs rs

/-- Modelled from the spec: the linear recovery scan of section 4.1 step 3.
From the current position it reads the local marker, validates it (kind byte
meaningful, payload not running past end of file), appends a synthesized
Offset Table Entry and advances; at the first position without a full marker
or with a nonsensical marker it stops, keeping what it has. -/
def scanRecords : List Nat → Nat → List BufferOffset
  | kB :: cB :: s0 :: s1 :: s2 :: s3 :: t0 :: t1 :: t2 :: t3 :: t4 :: t5 :: t6 :: t7 :: rest,
    pos =>
    let size := s0 + 256 * s1 + 65536 * s2 + 16777216 * s3
    let tsN := t0 + 256 * t1 + 65536 * t2 + 16777216 * t3 + 4294967296 * t4 +
      1099511627776 * t5 + 281474976710656 * t6 + 72057594037927936 * t7
    if kB ≤ 2 ∧ size ≤ rest.length then
      ⟨pos + markerSize, size, kindOf kB, cB, tsDec tsN⟩ ::
        scanRecords (rest.drop size) (pos + markerSize + size)
    else []
  | _, _ => []
termination_by l _ => l.length
decreasing_by simp; omega

/-- Modelled from the spec: the validation token that ends a finalized
container (section 6, optional trailing index). -/
def footerMagic : List Nat := [73, 68, 88, 33]

/-- Modelled from the spec: parse of the serialized Offset Table of the
finalized index, count entries of 22 bytes each (offset, size, kind, codec,
timestamp), refusing leftovers or a meaningless kind byte. -/
def parseIndex : Nat → List Nat → Option (List BufferOffset)
  | 0, rest => if rest.isEmpty then some [] else none
  | n + 1, rest =>
    if 22 ≤ rest.length then
      let off := rest.getD 0 0 + 256 * rest.getD 1 0 + 65536 * rest.getD 2 0 +
        16777216 * rest.getD 3 0 + 4294967296 * rest.getD 4 0 + 1099511627776 * rest.getD 5 0 +
        281474976710656 * rest.getD 6 0 + 72057594037927936 * rest.getD 7 0
      let sz := rest.getD 8 0 + 256 * rest.getD 9 0 + 65536 * rest.getD 10 0 +
        16777216 * rest.getD 11 0
      let kB := rest.getD 12 0
      let cd := rest.getD 13 0
      let ts := rest.getD 14 0 + 256 * rest.getD 15 0 + 65536 * rest.getD 16 0 +
        16777216 * rest.getD 17 0 + 4294967296 * rest.getD 18 0 +
        1099511627776 * rest.getD 19 0 + 281474976710656 * rest.getD 20 0 +
        72057594037927936 * rest.getD 21 0
      if kB ≤ 2 then
        (parseIndex n (rest.drop 22)).map
          (fun es => (⟨off, sz, kindOf kB, cd, tsDec ts⟩ : BufferOffset) :: es)
      else none
    else none

/-- Modelled from the spec: the fast path of section 4.1 step 2.  A finalized
container ends with an 8-byte pointer to the serialized index followed by the
validation token; the pointer must be in bounds, the index must parse with a
consistent entry count, and every entry must satisfy the offset plus size
bound.  Any failure yields none and open falls back to the recovery scan. -/
def tryFastPath (bs : List Nat) : Option (List BufferOffset) :=
  if bs.length < headerSize + 12 then none
  else if bs.drop (bs.length - 4) ≠ footerMagic then none
  else
    let p := (bs.drop (bs.length - 12)).getD 0 0 + 256 * (bs.drop (bs.length - 12)).getD 1 0 +
      65536 * (bs.drop (bs.length - 12)).getD 2 0 + 16777216 * (bs.drop (bs.length - 12)).getD 3 0 +
      4294967296 * (bs.drop (bs.length - 12)).getD 4 0 +
      1099511627776 * (bs.drop (bs.length - 12)).getD 5 0 +
      281474976710656 * (bs.drop (bs.length - 12)).getD 6 0 +
      72057594037927936 * (bs.drop (bs.length - 12)).getD 7 0
    if p < headerSize ∨ bs.length - 12 < p + 4 then none
    else
      let cnt := (bs.drop p).getD 0 0 + 256 * (bs.drop p).getD 1 0 +
        65536 * (bs.drop p).getD 2 0 + 16777216 * (bs.drop p).getD 3 0
      match parseIndex cnt ((bs.drop (p + 4)).take (bs.length - 12 - (p + 4))) with
      | none => none
      | some es => if es.all (fun e => e.offset + e.size ≤ bs.length) then some es else none

/-- Ordering on Offset Table Entries by timestamp, used to build the Frame
Timestamp Index. -/
abbrev tsLE (a b : BufferOffset) : Prop := a.timestamp ≤ b.timestamp

instance : DecidableRel tsLE := fun a b => Int.decLe a.timestamp b.timestamp

instance : IsTotal BufferOffset tsLE := ⟨fun a b => Int.le_total a.timestamp b.timestamp⟩

instance : IsTrans BufferOffset tsLE := ⟨fun _ _ _ h1 h2 => le_trans h1 h2⟩

/-- Adjacent duplicate timestamps in a list of entries; on a sorted list this
detects any duplicate Frame timestamp. -/
def hasAdjDup : List BufferOffset → Bool
  | a :: b :: rest => a.timestamp == b.timestamp || hasAdjDup (b :: rest)
  | _ => false

/-- Modelled from the spec: the Decoder state of section 3 after open.  It
owns the file bytes, the Frame entries sorted by timestamp (backing mFrameList
and mFrameOffsetMap of Decoder.hpp), the Audio entries in index order
(mAudioOffsets) and the metadata entries. -/
structure Decoder where
  file : List Nat
  frameEntries : List BufferOffset
  audioEntries : List BufferOffset
  metaEntries : List BufferOffset
deriving DecidableEq

/-- Modelled from the spec: step 4 of section 4.1: partition entries by kind,
sort Frame entries by timestamp and fail with CorruptContainer on a duplicate
Frame timestamp. -/
def buildDecoder (file : List Nat) (es : List BufferOffset) (usedRecovery : Bool) :
    Except DecErr (Decoder × Bool) :=
  let frames := List.insertionSort tsLE (es.filter (fun e => e.kind == RecordKind.frame))
  if hasAdjDup frames then Except.error DecErr.corruptContainer
  else
    Except.ok
      ({ file := file,
         frameEntries := frames,
         audioEntries := es.filter (fun e => e.kind == RecordKind.audio),
         metaEntries := es.filter (fun e => e.kind == RecordKind.metadata) }, usedRecovery)

/-- Modelled from the spec: the Offset Table produced by the Index Builder,
authoritative trailing index when valid, recovery scan otherwise. -/
def indexEntries (bs : List Nat) : List BufferOffset :=
  (tryFastPath bs).getD (scanRecords (bs.drop headerSize) headerSize)

/-- Modelled from the spec: open of section 4.1/4.2 (Decoder::init and
Decoder::readIndex of Decoder.hpp): header check, fast path else recovery
scan (CorruptContainer when the scan recovers zero records), then index
build; the boolean of the result says the recovery path was used, the
observable property of section 4.1 step 5. -/
def openContainer (bs : List Nat) : Except DecErr (Decoder × Bool) :=
  if bs.take headerSize = headerBytes then
    match tryFastPath bs with
    | some es => buildDecoder bs es false
    | none =>
        let es := scanRecords (bs.drop headerSize) headerSize
        if es.isEmpty then Except.error DecErr.corruptContainer
        else buildDecoder bs es true
  else Except.error DecErr.corruptContainer

/-- Decoder::getFrames: the Frame Timestamp Index. -/
def getFrames (d : Decoder) : List Timestamp := d.frameEntries.map (fun e => e.timestamp)

/-- Modelled from the spec: the bounds-checked read primitive of section 9;
a read of cnt bytes at offset off is refused unless off + cnt is within the
file. -/
def readBytesChecked (file : List Nat) (off cnt : Nat) : Option (List Nat) :=
  if off + cnt ≤ file.length then some ((file.drop off).take cnt) else none

/-- Modelled from the spec: the Codec Dispatcher of section 4.3, a pure
function over the closed codec set (tag 0, the raw passthrough of this
model). -/
def decompressBuf (codec : Nat) (src : List Nat) : Except DecErr (List Nat) :=
  if codec = 0 then Except.ok src else Except.error DecErr.unsupportedCodec

/-- Modelled from the spec: bytes per sample implied by a compression type
(16-bit raw sensor data). -/
def bytesPerSample (_compressionType : Nat) : Nat := 2

/-- Modelled from the spec: Decoder::loadFrame of section 4.2: look the
timestamp up in the Timestamp-to-Offset map (FrameNotFound on a miss), read
the on-disk bytes, decompress by the stored codec, and validate the decoded
length against width * height * bytesPerSample (SizeMismatch otherwise).
The output is the returned buffer alone: nothing from a previous call can
appear in it. -/
def loadFrame (d : Decoder) (timestamp : Timestamp) (width height compressionType : Nat) :
    Except DecErr (List Nat) :=
  match d.frameEntries.find? (fun e => e.timestamp == timestamp) with
  | none => Except.error DecErr.frameNotFound
  | some e =>
    match readBytesChecked d.file e.offset e.size with
    | none => Except.error DecErr.ioError
    | some raw =>
      match decompressBuf e.codec raw with
      | Except.error er => Except.error er
      | Except.ok out =>
        if out.length = width * height * bytesPerSample compressionType then Except.ok out
        else Except.error DecErr.sizeMismatch

/-- Metadata entry recorded for a frame timestamp, if any. -/
def metaFor (d : Decoder) (timestamp : Timestamp) : Option BufferOffset :=
  d.metaEntries.find? (fun e => e.timestamp == timestamp)

/-- Text of a metadata entry. -/
def metaTextOf (d : Decoder) (e : BufferOffset) : List Nat := (d.file.drop e.offset).take e.size

/-- Modelled from the spec: Decoder::loadFrameMetadata of section 4.2: same
lookup discipline as loadFrame, FrameNotFound when the timestamp is unknown,
and an absent-marker (none) result, not an error, when the frame has no
metadata record. -/
def loadFrameMetadata (d : Decoder) (timestamp : Timestamp) :
    Except DecErr (Option (List Nat)) :=
  match d.frameEntries.find? (fun e => e.timestamp == timestamp) with
  | none => Except.error DecErr.frameNotFound
  | some _ => Except.ok ((metaFor d timestamp).map (metaTextOf d))

/-- Signed 16-bit sample value of a two-byte little-endian group. -/
def i16val (n : Nat) : Int :=
  if n % 65536 < 32768 then (n % 65536 : Int) else (n % 65536 : Int) - 65536

/-- Modelled from the spec: decode of a decompressed audio payload into its
ordered 16-bit samples. -/
def decodeSamples : List Nat → List Int
  | b0 :: b1 :: rest => i16val (b0 + 256 * b1) :: decodeSamples rest
  | _ => []

/-- Modelled from the spec: the Audio Chunk produced from one Audio entry. -/
def audioChunkOf (d : Decoder) (e : BufferOffset) : AudioChunk :=
  (e.timestamp, decodeSamples ((d.file.drop e.offset).take e.size))

/-- Modelled from the spec: the bulk loadAudio of section 4.2, every Audio
entry decompressed in index order into one in-memory sequence. -/
def loadAudioBulk (d : Decoder) : List AudioChunk := d.audioEntries.map (audioChunkOf d)

/-- Modelled from the spec: the Audio Chunk Loader state of section 4.4, a
cursor holding the next unread audio-entry position, exclusively owned by the
loader. -/
structure LoaderState where
  cursor : Nat
deriving DecidableEq

/-- Modelled from the spec: the streaming loadAudio, a fresh loader with its
cursor at the first Audio entry. -/
def loadAudioStreaming (_d : Decoder) : LoaderState := ⟨0⟩

/-- Modelled from the spec: next of section 4.4: at a live cursor produce the
chunk and advance; past the end report false (none) without moving. -/
def loaderNext (d : Decoder) (l : LoaderState) : Option AudioChunk × LoaderState :=
  match d.audioEntries[l.cursor]? with
  | some e => (some (audioChunkOf d e), ⟨l.cursor + 1⟩)
  | none => (none, l)

/-- Chunks produced by looping next from cursor c at most fuel times, until
next signals the end. -/
def drainAux (d : Decoder) : Nat → Nat → List AudioChunk
  | _, 0 => []
  | c, fuel + 1 =>
    match loaderNext d ⟨c⟩ with
    | (some ch, l2) => ch :: drainAux d l2.cursor fuel
    | (none, _) => []

/-- Every chunk a loader yields when next is called until it returns false. -/
def drain (d : Decoder) (l : LoaderState) : List AudioChunk :=
  drainAux d l.cursor (d.audioEntries.length - l.cursor)

/-- Modelled from the spec: a Decoder together with the loaders handed out by
the streaming loadAudio; each loader holds its own cursor (section 3,
ownership). -/
structure AudioSession where
  dec : Decoder
  loaders : List LoaderState
deriving DecidableEq

/-- Modelled from the spec: obtaining one more loader from the streaming
loadAudio entry point; existing loaders are untouched. -/
def mkLoader (s : AudioSession) : AudioSession :=
  { s with loaders := s.loaders ++ [⟨0⟩] }

/-- Cursor state after one next call. -/
def advanceLoader (d : Decoder) (l : LoaderState) : LoaderState := (loaderNext d l).2

/-- Modelled from the spec: calling next on the i-th loader of a session;
only that loader's cursor is written. -/
def nextOnSession (s : AudioSession) (i : Nat) : AudioSession :=
  match s.loaders[i]? with
  | some l => { s with loaders := s.loaders.set i (advanceLoader s.dec l) }
  | none => s

/-- Entries the Offset Table should hold for a record sequence laid out from
byte position pos. -/
def entriesOf : List RawRecord → Nat → List BufferOffset
  | [], _ => []
  | r :: rs, pos =>
    (⟨pos + markerSize, r.payload.length, r.kind, r.codec, r.timestamp⟩ : BufferOffset) ::
      entriesOf rs (pos + (serRecord r).length)

/-- Number of leading records whose on-disk bytes fit completely within a
byte budget. -/
def completeCount : List RawRecord → Nat → Nat
  | [], _ => 0
  | r :: rs, budget =>
    if (serRecord r).length ≤ budget then completeCount rs (budget - (serRecord r).length) + 1
    else 0

/-- Frame timestamps of a record sequence in file order. -/
def frameTs (rs : List RawRecord) : List Int :=
  (rs.filter (fun r => r.kind == RecordKind.frame)).map (fun r => r.timestamp)

end Motioncam

deriving instance DecidableEq for Except

open Tinydngwriter Motioncam

/-- Concrete record sequence used to exercise the recovery-truncation
theorem on a container of two frames and one audio chunk. -/
def c1rs : List RawRecord :=
  [⟨RecordKind.frame, 0, 100, [1, 2, 3]⟩, ⟨RecordKind.audio, 0, 150, [4, 5]⟩,
   ⟨RecordKind.frame, 0, 200, [6]⟩]

/-- Truncation point cutting ten bytes into the third record of c1rs. -/
def c1t : Nat := 49

/-- Concrete opened Decoder holding a single frame at timestamp 100. -/
def dW : Decoder :=
  { file := [], frameEntries := [⟨0, 0, RecordKind.frame, 0, 100⟩],
    audioEntries := [], metaEntries := [] }

/-- Text of length 2^32 + 1, long enough to wrap the 32-bit count of the
ASCII setters. -/
def hugeAscii : List Nat := List.replicate 4294967297 65


theorem tsDec_tsEnc (t : Int) (h1 : -(9223372036854775808 : Int) ≤ t)
    (h2 : t < 9223372036854775808) : tsDec (tsEnc t) = t := by
  unfold tsDec tsEnc
  have hmod : t.emod 18446744073709551616 =
      if 0 ≤ t then t else t + 18446744073709551616 := by
    split
    · exact Int.emod_eq_of_lt (by omega) (by omega)
    · have : (t + 18446744073709551616).emod 18446744073709551616 =
          t.emod 18446744073709551616 := by
        have h := Int.add_mul_emod_self_left t 18446744073709551616 1; rw [Int.mul_one] at h; exact h
      rw [← this]
      exact Int.emod_eq_of_lt (by omega) (by omega)
  rw [hmod]
  split <;> split <;> omega

theorem serRecord_length (r : RawRecord) : (serRecord r).length = markerSize + r.payload.length := by
  simp [serRecord, markerSize]; omega

theorem scan_short (l : List Nat) (pos : Nat) (h : l.length < 14) :
    scanRecords l pos = [] := by
  match l with
  | [] => simp [scanRecords]
  | [a0] => simp [scanRecords]
  | [a0, a1] => simp [scanRecords]
  | [a0, a1, a2] => simp [scanRecords]
  | [a0, a1, a2, a3] => simp [scanRecords]
  | [a0, a1, a2, a3, a4] => simp [scanRecords]
  | [a0, a1, a2, a3, a4, a5] => simp [scanRecords]
  | [a0, a1, a2, a3, a4, a5, a6] => simp [scanRecords]
  | [a0, a1, a2, a3, a4, a5, a6, a7] => simp [scanRecords]
  | [a0, a1, a2, a3, a4, a5, a6, a7, a8] => simp [scanRecords]
  | [a0, a1, a2, a3, a4, a5, a6, a7, a8, a9] => simp [scanRecords]
  | [a0, a1, a2, a3, a4, a5, a6, a7, a8, a9, a10] => simp [scanRecords]
  | [a0, a1, a2, a3, a4, a5, a6, a7, a8, a9, a10, a11] => simp [scanRecords]
  | [a0, a1, a2, a3, a4, a5, a6, a7, a8, a9, a10, a11, a12] => simp [scanRecords]
  | a0 :: a1 :: a2 :: a3 :: a4 :: a5 :: a6 :: a7 :: a8 :: a9 :: a10 :: a11 :: a12 :: a13 :: rest =>
    simp at h
    omega

theorem tsEnc_lt (t : Int) : tsEnc t < 18446744073709551616 := by
  unfold tsEnc
  have h1 : 0 ≤ t.emod 18446744073709551616 := Int.emod_nonneg t (by norm_num)
  have h2 : t.emod 18446744073709551616 < 18446744073709551616 :=
    Int.emod_lt_of_pos t (by norm_num)
  omega

theorem kindOf_kindCode (k : RecordKind) : kindOf (kindCode k) = k := by
  cases k <;> rfl

theorem kindCode_le (k : RecordKind) : kindCode k ≤ 2 := by
  cases k <;> simp [kindCode]

theorem scan_cons (r : RawRecord) (tl : List Nat) (pos : Nat) (hwf : WfRecord r) :
    scanRecords (serRecord r ++ tl) pos =
      (⟨pos + markerSize, r.payload.length, r.kind, r.codec, r.timestamp⟩ : BufferOffset) ::
        scanRecords tl (pos + markerSize + r.payload.length) := by
  obtain ⟨hp, ht1, ht2⟩ := hwf
  have hts := tsEnc_lt r.timestamp
  simp only [serRecord, List.cons_append]
  rw [scanRecords]
  have hsize : r.payload.length % 256 + 256 * (r.payload.length / 256 % 256) +
      65536 * (r.payload.length / 65536 % 256) +
      16777216 * (r.payload.length / 16777216 % 256) = r.payload.length := by omega
  have htsN : tsEnc r.timestamp % 256 + 256 * (tsEnc r.timestamp / 256 % 256) +
      65536 * (tsEnc r.timestamp / 65536 % 256) +
      16777216 * (tsEnc r.timestamp / 16777216 % 256) +
      4294967296 * (tsEnc r.timestamp / 4294967296 % 256) +
      1099511627776 * (tsEnc r.timestamp / 1099511627776 % 256) +
      281474976710656 * (tsEnc r.timestamp / 281474976710656 % 256) +
      72057594037927936 * (tsEnc r.timestamp / 72057594037927936 % 256) =
        tsEnc r.timestamp := by omega
  rw [hsize, htsN, kindOf_kindCode, tsDec_tsEnc r.timestamp ht1 ht2]
  rw [if_pos ⟨kindCode_le r.kind, by simp⟩]
  have hdrop : List.drop r.payload.length (r.payload ++ tl) = tl := by
    rw [List.drop_append_eq_append_drop]
    simp
  rw [hdrop]

theorem scan_partial (r : RawRecord) (b pos : Nat) (hwf : WfRecord r)
    (hb : b < (serRecord r).length) :
    scanRecords ((serRecord r).take b) pos = [] := by
  obtain ⟨hp, ht1, ht2⟩ := hwf
  rcases Nat.lt_or_ge b 14 with h | h
  · apply scan_short
    rw [List.length_take]
    omega
  · obtain ⟨m, rfl⟩ : ∃ m, b = 14 + m := ⟨b - 14, by omega⟩
    have hm : m < r.payload.length := by
      rw [serRecord_length] at hb
      simp [markerSize] at hb
      omega
    have h1 : (serRecord r).take (14 + m) = (serRecord r).take 14 ++ r.payload.take m := by
      rw [List.take_add]
      congr 1
    have h2 : (serRecord r).take 14 =
        kindCode r.kind :: r.codec ::
        r.payload.length % 256 :: r.payload.length / 256 % 256 ::
        r.payload.length / 65536 % 256 :: r.payload.length / 16777216 % 256 ::
        tsEnc r.timestamp % 256 :: tsEnc r.timestamp / 256 % 256 ::
        tsEnc r.timestamp / 65536 % 256 :: tsEnc r.timestamp / 16777216 % 256 ::
        tsEnc r.timestamp / 4294967296 % 256 :: tsEnc r.timestamp / 1099511627776 % 256 ::
        tsEnc r.timestamp / 281474976710656 % 256 ::
        tsEnc r.timestamp / 72057594037927936 % 256 :: [] := rfl
    rw [h1, h2]
    simp only [List.cons_append, List.nil_append]
    rw [scanRecords]
    rw [if_neg]
    intro hcon
    obtain ⟨-, hsz⟩ := hcon
    rw [List.length_take] at hsz
    have hsize : r.payload.length % 256 + 256 * (r.payload.length / 256 % 256) +
        65536 * (r.payload.length / 65536 % 256) +
        16777216 * (r.payload.length / 16777216 % 256) = r.payload.length := by omega
    omega

theorem scan_take_serialize (rs : List RawRecord) :
    ∀ (budget pos : Nat), (∀ r ∈ rs, WfRecord r) →
    scanRecords ((serializeRecs rs).take budget) pos
      = entriesOf (rs.take (completeCount rs budget)) pos := by
  induction rs with
  | nil =>
    intro budget pos _
    simp [serializeRecs, completeCount, entriesOf]
    exact scan_short [] pos (by simp)
  | cons r rs ih =>
    intro budget pos hwf
    have hwr : WfRecord r := hwf r (by simp)
    have hwrs : ∀ x ∈ rs, WfRecord x := fun x hx => hwf x (by simp [hx])
    by_cases hc : (serRecord r).length ≤ budget
    · have h1 : (serializeRecs (r :: rs)).take budget
          = serRecord r ++ (serializeRecs rs).take (budget - (serRecord r).length) := by
        show (serRecord r ++ serializeRecs rs).take budget = _
        rw [List.take_append_eq_append_take, List.take_of_length_le hc]
      rw [h1, scan_cons r _ pos hwr]
      have h2 : completeCount (r :: rs) budget
          = completeCount rs (budget - (serRecord r).length) + 1 := by
        rw [completeCount, if_pos hc]
      rw [h2, List.take_succ_cons, entriesOf]
      rw [ih _ _ hwrs]
      rw [serRecord_length]
      rw [Nat.add_assoc]
    · have h1 : (serializeRecs (r :: rs)).take budget = (serRecord r).take budget := by
        show (serRecord r ++ serializeRecs rs).take budget = _
        rw [List.take_append_eq_append_take]
        have hz : budget - (serRecord r).length = 0 := by omega
        rw [hz]
        simp
      rw [h1, scan_partial r budget pos hwr (by omega)]
      have h2 : completeCount (r :: rs) budget = 0 := by
        rw [completeCount, if_neg hc]
      rw [h2]
      simp [entriesOf]

theorem entriesOf_filter_frame_ts (rs : List RawRecord) :
    ∀ pos, ((entriesOf rs pos).filter (fun e => e.kind == RecordKind.frame)).map
      (fun e => e.timestamp) = frameTs rs := by
  induction rs with
  | nil => intro pos; simp [entriesOf, frameTs]
  | cons r rs ih =>
    intro pos
    rw [entriesOf]
    rw [frameTs, List.filter_cons, List.filter_cons]
    by_cases h : r.kind == RecordKind.frame
    · simp only [h, if_pos, List.map_cons]
      rw [frameTs] at ih
      rw [ih]
    · simp only [h]
      simp only [Bool.false_eq_true, if_false]
      rw [frameTs] at ih
      rw [ih]

theorem hasAdjDup_eq_false (l : List BufferOffset)
    (h : List.Chain' (· < ·) (l.map (fun e => e.timestamp))) : hasAdjDup l = false := by
  induction l with
  | nil => rfl
  | cons a tl ih =>
    cases tl with
    | nil => rfl
    | cons b rest =>
      simp only [List.map_cons, List.chain'_cons] at h
      rw [hasAdjDup]
      have h1 : (a.timestamp == b.timestamp) = false := by
        simp only [beq_eq_false_iff_ne, ne_eq]
        exact ne_of_lt h.1
      rw [h1]
      simp only [Bool.false_or]
      exact ih (by simpa using h.2)

theorem chain_lt_of_sorted (l : List BufferOffset) (hs : List.Sorted tsLE l)
    (hd : hasAdjDup l = false) :
    List.Chain' (· < ·) (l.map (fun e => e.timestamp)) := by
  induction l with
  | nil => simp
  | cons a tl ih =>
    cases tl with
    | nil => simp
    | cons b rest =>
      rw [hasAdjDup] at hd
      rw [Bool.or_eq_false_iff] at hd
      obtain ⟨h1, h2⟩ := hd
      have hcons := List.sorted_cons.mp hs
      have hab : a.timestamp ≤ b.timestamp := hcons.1 b (by simp)
      have hne : a.timestamp ≠ b.timestamp := by simpa using h1
      simp only [List.map_cons, List.chain'_cons]
      constructor
      · exact lt_of_le_of_ne hab hne
      · simpa using ih hcons.2 h2

theorem buildDecoder_of_sorted (file : List Nat) (es : List BufferOffset) (b : Bool)
    (hchain : List.Chain' (· < ·)
      ((es.filter (fun e => e.kind == RecordKind.frame)).map (fun e => e.timestamp))) :
    buildDecoder file es b = Except.ok
      ({ file := file,
         frameEntries := es.filter (fun e => e.kind == RecordKind.frame),
         audioEntries := es.filter (fun e => e.kind == RecordKind.audio),
         metaEntries := es.filter (fun e => e.kind == RecordKind.metadata) }, b) := by
  have hpair : List.Pairwise (fun a b : BufferOffset => a.timestamp < b.timestamp)
      (es.filter (fun e => e.kind == RecordKind.frame)) := by
    rw [← List.pairwise_map]
    rw [List.chain'_iff_pairwise] at hchain
    exact hchain
  have hsorted : List.Sorted tsLE (es.filter (fun e => e.kind == RecordKind.frame)) :=
    hpair.imp (fun h => le_of_lt h)
  have heq : List.insertionSort tsLE (es.filter (fun e => e.kind == RecordKind.frame))
      = es.filter (fun e => e.kind == RecordKind.frame) := hsorted.insertionSort_eq
  rw [buildDecoder, heq]
  rw [hasAdjDup_eq_false _ hchain]
  simp

theorem openContainer_recovery (bs : List Nat) (h1 : bs.take headerSize = headerBytes)
    (h2 : tryFastPath bs = none) :
    openContainer bs =
      (if (scanRecords (bs.drop headerSize) headerSize).isEmpty = true then
        Except.error DecErr.corruptContainer
       else buildDecoder bs (scanRecords (bs.drop headerSize) headerSize) true) := by
  rw [openContainer, if_pos h1, h2]

theorem entriesOf_ne_nil (rs : List RawRecord) (b : Nat) (h : 1 ≤ completeCount rs b) :
    (entriesOf (rs.take (completeCount rs b)) headerSize).isEmpty = false := by
  cases rs with
  | nil => simp [completeCount] at h
  | cons r rs2 =>
    obtain ⟨k2, hk2⟩ : ∃ k2, completeCount (r :: rs2) b = k2 + 1 :=
      ⟨completeCount (r :: rs2) b - 1, by omega⟩
    rw [hk2, List.take_succ_cons, entriesOf]
    rfl

/-- C1: a wellformed container truncated at any byte boundary strictly after
the header and after at least one complete record opens via the recovery
scan, and the offset table exposes exactly the frames and audio chunks whose
complete record (marker plus payload) lies entirely before the truncation
point; the trailing partial record is discarded.  The last hypothesis says
the truncated bytes do not accidentally end in the finalized-index token, in
which case the fast path would be probed first. -/
theorem recovery_truncation_exact (rs : List RawRecord) (t : Nat)
    (hwf : ∀ r ∈ rs, WfRecord r)
    (hasc : List.Chain' (· < ·) (frameTs rs))
    (hhdr : headerSize < t)
    (hone : 1 ≤ completeCount rs (t - headerSize))
    (hnf : ((unfinalized rs).take t).drop (((unfinalized rs).take t).length - 4) ≠ footerMagic) :
    ∃ d : Decoder,
      openContainer ((unfinalized rs).take t) = Except.ok (d, true) ∧
      d.frameEntries = (entriesOf (rs.take (completeCount rs (t - headerSize)))
        headerSize).filter (fun e => e.kind == RecordKind.frame) ∧
      d.audioEntries = (entriesOf (rs.take (completeCount rs (t - headerSize)))
        headerSize).filter (fun e => e.kind == RecordKind.audio) ∧
      getFrames d = frameTs (rs.take (completeCount rs (t - headerSize))) := by
  have htt : ((unfinalized rs).take t).take headerSize = headerBytes := by
    show ((headerBytes ++ serializeRecs rs).take t).take headerSize = headerBytes
    rw [List.take_take]
    have hmin : headerSize ⊓ t = headerSize := by
      apply Nat.min_eq_left
      omega
    rw [hmin]
    rfl
  have hfast : tryFastPath ((unfinalized rs).take t) = none := by
    rw [tryFastPath]
    by_cases h18 : ((unfinalized rs).take t).length < headerSize + 12
    · rw [if_pos h18]
    · rw [if_neg h18, if_pos hnf]
  have hdrop : ((unfinalized rs).take t).drop headerSize
      = (serializeRecs rs).take (t - headerSize) := by
    show ((headerBytes ++ serializeRecs rs).take t).drop headerSize = _
    rw [List.drop_take]
    congr 1
  have hscan : scanRecords (((unfinalized rs).take t).drop headerSize) headerSize
      = entriesOf (rs.take (completeCount rs (t - headerSize))) headerSize := by
    rw [hdrop]
    exact scan_take_serialize rs (t - headerSize) headerSize hwf
  have hne := entriesOf_ne_nil rs (t - headerSize) hone
  have hchain : List.Chain' (· < ·)
      (((entriesOf (rs.take (completeCount rs (t - headerSize))) headerSize).filter
        (fun e => e.kind == RecordKind.frame)).map (fun e => e.timestamp)) := by
    rw [entriesOf_filter_frame_ts]
    have hsub : List.Sublist (frameTs (rs.take (completeCount rs (t - headerSize))))
        (frameTs rs) := by
      rw [frameTs, frameTs]
      exact ((List.take_sublist (completeCount rs (t - headerSize)) rs).filter _).map _
    rw [List.chain'_iff_pairwise] at hasc ⊢
    exact hasc.sublist hsub
  refine ⟨{ file := (unfinalized rs).take t,
            frameEntries := (entriesOf (rs.take (completeCount rs (t - headerSize)))
              headerSize).filter (fun e => e.kind == RecordKind.frame),
            audioEntries := (entriesOf (rs.take (completeCount rs (t - headerSize)))
              headerSize).filter (fun e => e.kind == RecordKind.audio),
            metaEntries := (entriesOf (rs.take (completeCount rs (t - headerSize)))
              headerSize).filter (fun e => e.kind == RecordKind.metadata) }, ?_, rfl, rfl, ?_⟩
  · rw [openContainer_recovery _ htt hfast, hscan, hne]
    simp only [Bool.false_eq_true, if_false]
    exact buildDecoder_of_sorted _ _ true hchain
  · rw [getFrames]
    rw [entriesOf_filter_frame_ts]

theorem c1_witness :
    (∀ r ∈ c1rs, WfRecord r) ∧ List.Chain' (· < ·) (frameTs c1rs) ∧ headerSize < c1t ∧
    1 ≤ completeCount c1rs (c1t - headerSize) ∧
    ((unfinalized c1rs).take c1t).drop (((unfinalized c1rs).take c1t).length - 4) ≠ footerMagic ∧
    (∃ d : Decoder,
      openContainer ((unfinalized c1rs).take c1t) = Except.ok (d, true) ∧
      d.frameEntries = (entriesOf (c1rs.take (completeCount c1rs (c1t - headerSize)))
        headerSize).filter (fun e => e.kind == RecordKind.frame) ∧
      d.audioEntries = (entriesOf (c1rs.take (completeCount c1rs (c1t - headerSize)))
        headerSize).filter (fun e => e.kind == RecordKind.audio) ∧
      getFrames d = frameTs (c1rs.take (completeCount c1rs (c1t - headerSize)))) :=
  ⟨by decide,
   by rw [show frameTs c1rs = [100, 200] from rfl]; simp,
   by decide, by decide, by decide,
   recovery_truncation_exact c1rs c1t (by decide)
     (by rw [show frameTs c1rs = [100, 200] from rfl]; simp)
     (by decide) (by decide) (by decide)⟩

theorem buildDecoder_ok_inv (file : List Nat) (es : List BufferOffset) (b b2 : Bool)
    (d : Decoder) (h : buildDecoder file es b = Except.ok (d, b2)) :
    d.frameEntries = List.insertionSort tsLE (es.filter (fun e => e.kind == RecordKind.frame))
      ∧ hasAdjDup d.frameEntries = false := by
  rw [buildDecoder] at h
  by_cases hdup : hasAdjDup (List.insertionSort tsLE (es.filter (fun e => e.kind == RecordKind.frame)))
  · rw [hdup] at h
    simp at h
  · rw [Bool.not_eq_true] at hdup
    rw [hdup] at h
    simp only [Bool.false_eq_true, if_false, Except.ok.injEq, Prod.mk.injEq] at h
    obtain ⟨hd, -⟩ := h
    constructor
    · rw [← hd]
    · rw [← hd, hdup]

theorem nodup_of_chain_lt (l : List Int) (h : List.Chain' (· < ·) l) : l.Nodup := by
  rw [List.chain'_iff_pairwise] at h
  exact h.imp (fun hab => ne_of_lt hab)

theorem buildDecoder_dup (file : List Nat) (es : List BufferOffset) (b : Bool)
    (hnd : ¬ ((es.filter (fun e => e.kind == RecordKind.frame)).map
      (fun e => e.timestamp)).Nodup) :
    buildDecoder file es b = Except.error DecErr.corruptContainer := by
  rw [buildDecoder]
  by_cases hdup : hasAdjDup (List.insertionSort tsLE (es.filter (fun e => e.kind == RecordKind.frame)))
  · rw [hdup]
    simp
  · exfalso
    rw [Bool.not_eq_true] at hdup
    have hsorted := List.sorted_insertionSort tsLE (es.filter (fun e => e.kind == RecordKind.frame))
    have hchain := chain_lt_of_sorted _ hsorted hdup
    have hns := nodup_of_chain_lt _ hchain
    have hperm : List.Perm
        (List.insertionSort tsLE (es.filter (fun e => e.kind == RecordKind.frame)))
        (es.filter (fun e => e.kind == RecordKind.frame)) :=
      List.perm_insertionSort tsLE _
    exact hnd (((hperm.map (fun e => e.timestamp)).nodup_iff).mp hns)

theorem frames_sorted_of_open (bs : List Nat) (d : Decoder) (rec : Bool)
    (h : openContainer bs = Except.ok (d, rec)) :
    List.Chain' (· < ·) (getFrames d) ∧ (getFrames d).Nodup := by
  have hinv : d.frameEntries = List.insertionSort tsLE
      ((indexEntries bs).filter (fun e => e.kind == RecordKind.frame))
      ∧ hasAdjDup d.frameEntries = false := by
    rw [openContainer] at h
    by_cases hh : bs.take headerSize = headerBytes
    · rw [if_pos hh] at h
      cases hf : tryFastPath bs with
      | some es =>
        rw [hf] at h
        have := buildDecoder_ok_inv bs es false rec d h
        rw [indexEntries, hf]
        exact this
      | none =>
        rw [hf] at h
        by_cases hemp : (scanRecords (bs.drop headerSize) headerSize).isEmpty
        · rw [if_pos hemp] at h
          simp at h
        · rw [if_neg hemp] at h
          have := buildDecoder_ok_inv bs _ true rec d h
          rw [indexEntries, hf]
          exact this
    · rw [if_neg hh] at h
      simp at h
  obtain ⟨hfr, hdup⟩ := hinv
  have hsorted : List.Sorted tsLE d.frameEntries := by
    rw [hfr]
    exact List.sorted_insertionSort tsLE _
  have hchain := chain_lt_of_sorted _ hsorted hdup
  exact ⟨hchain, nodup_of_chain_lt _ hchain⟩

/-- C2 helper: the open-time duplicate rejection. -/
theorem open_dup_rejected (bs : List Nat)
    (hnd : ¬ (((indexEntries bs).filter (fun e => e.kind == RecordKind.frame)).map
        (fun e => e.timestamp)).Nodup) :
    openContainer bs = Except.error DecErr.corruptContainer := by
  rw [openContainer]
  by_cases hh : bs.take headerSize = headerBytes
  · rw [if_pos hh]
    cases hf : tryFastPath bs with
    | some es =>
      rw [indexEntries, hf] at hnd
      exact buildDecoder_dup bs es false hnd
    | none =>
      rw [indexEntries, hf] at hnd
      by_cases hemp : (scanRecords (bs.drop headerSize) headerSize).isEmpty
      · rw [if_pos hemp]
      · rw [if_neg hemp]
        exact buildDecoder_dup bs _ true hnd
  · rw [if_neg hh]

theorem drainAux_eq (d : Decoder) :
    ∀ (fuel c : Nat), d.audioEntries.length ≤ c + fuel →
    drainAux d c fuel = (d.audioEntries.drop c).map (audioChunkOf d) := by
  intro fuel
  induction fuel with
  | zero =>
    intro c hc
    rw [drainAux]
    rw [List.drop_eq_nil_of_le (by omega)]
    rfl
  | succ n ih =>
    intro c hc
    rw [drainAux]
    cases hg : d.audioEntries[c]? with
    | some e =>
      have hlt : c < d.audioEntries.length := by
        by_contra hcon
        rw [List.getElem?_eq_none_iff.mpr (by omega)] at hg
        exact Option.noConfusion hg
      rw [loaderNext, hg]
      simp only
      rw [ih (c + 1) (by omega)]
      rw [List.drop_eq_getElem_cons hlt]
      rw [List.map_cons]
      have hge : d.audioEntries[c] = e := by
        have := List.getElem?_eq_getElem hlt
        rw [hg] at this
        exact (Option.some.injEq _ _).mp this.symm
      rw [hge]
    | none =>
      rw [loaderNext, hg]
      simp only
      rw [List.getElem?_eq_none_iff] at hg
      rw [List.drop_eq_nil_of_le hg]
      rfl

/-- C3: for every Decoder, looping next on the streaming Audio Chunk Loader
returned by loadAudio until it reports the end yields, element for element,
the same chunk sequence as the bulk loadAudio entry point. -/
theorem audio_stream_bulk_equiv (d : Decoder) :
    drain d (loadAudioStreaming d) = loadAudioBulk d := by
  rw [drain, loadAudioStreaming, loadAudioBulk]
  rw [drainAux_eq d (d.audioEntries.length - 0) 0 (by omega)]
  rfl

theorem find_ts_none (l : List BufferOffset) (t : Int)
    (h : t ∉ l.map (fun e => e.timestamp)) :
    l.find? (fun e => e.timestamp == t) = none := by
  rw [List.find?_eq_none]
  intro x hx
  simp only [beq_iff_eq]
  intro hcon
  exact h (List.mem_map.mpr ⟨x, hx, hcon⟩)

theorem loadFrame_notFound_aux (d : Decoder) (t : Int) (w h ct : Nat)
    (hni : t ∉ getFrames d) :
    loadFrame d t w h ct = Except.error DecErr.frameNotFound := by
  rw [loadFrame, find_ts_none d.frameEntries t hni]

theorem loadFrameMetadata_in (d : Decoder) (t : Int) (hin : t ∈ getFrames d) :
    loadFrameMetadata d t = Except.ok ((metaFor d t).map (metaTextOf d)) ∧
      (((metaFor d t).map (metaTextOf d)).isNone ↔ ∀ e ∈ d.metaEntries, e.timestamp ≠ t) := by
  constructor
  · rw [loadFrameMetadata]
    cases hf : d.frameEntries.find? (fun e => e.timestamp == t) with
    | some e => rfl
    | none =>
      exfalso
      rw [List.find?_eq_none] at hf
      rw [getFrames] at hin
      obtain ⟨e, he, het⟩ := List.mem_map.mp hin
      exact hf e he (by simpa using het)
  · rw [metaFor]
    cases hm : d.metaEntries.find? (fun e => e.timestamp == t) with
    | some e =>
      simp only [Option.map_some', Option.isNone_some, Bool.false_eq_true, false_iff]
      intro hcon
      have := List.find?_some hm
      have hmem := List.mem_of_find?_eq_some hm
      exact hcon e hmem (by simpa using this)
    | none =>
      simp only [Option.map_none', Option.isNone_none, true_iff]
      rw [List.find?_eq_none] at hm
      intro e he
      have := hm e he
      simpa using this

theorem loadFrameMetadata_notFound (d : Decoder) (t : Int) (hni : t ∉ getFrames d) :
    loadFrameMetadata d t = Except.error DecErr.frameNotFound := by
  rw [loadFrameMetadata, find_ts_none d.frameEntries t hni]

theorem nextOnSession_other (s : AudioSession) (i j : Nat) (hij : i ≠ j) :
    (nextOnSession s i).loaders[j]? = s.loaders[j]? := by
  rw [nextOnSession]
  cases hl : s.loaders[i]? with
  | some l => exact List.getElem?_set_ne hij
  | none => rfl

theorem mkLoader_keeps (s : AudioSession) (j : Nat) (hj : j < s.loaders.length) :
    (mkLoader s).loaders[j]? = s.loaders[j]? := by
  rw [mkLoader]
  simp only
  rw [List.getElem?_append]
  rw [if_pos hj]

theorem advanceLoader_mono (d : Decoder) (l : LoaderState) :
    l.cursor ≤ (advanceLoader d l).cursor := by
  rw [advanceLoader, loaderNext]
  cases d.audioEntries[l.cursor]? with
  | some e => simp
  | none => simp

theorem nextOnSession_mono (s : AudioSession) (i : Nat) (l l2 : LoaderState)
    (h1 : s.loaders[i]? = some l) (h2 : (nextOnSession s i).loaders[i]? = some l2) :
    l.cursor ≤ l2.cursor := by
  rw [nextOnSession, h1] at h2
  simp only at h2
  have hi : i < s.loaders.length := by
    by_contra hcon
    rw [List.getElem?_eq_none_iff.mpr (by omega)] at h1
    exact Option.noConfusion h1
  rw [List.getElem?_set_self] at h2
  · have hl2 : advanceLoader s.dec l = l2 := (Option.some.injEq _ _).mp h2
    rw [← hl2]
    exact advanceLoader_mono s.dec l
  · exact hi

/-- C7: DNGWriter::WriteToFile has exactly two outcomes: either it returns a
buffer holding the produced file bytes and stores that byte count through the
count pointer, or it returns null, stores a non-empty error string through a
non-null err pointer, and leaves the count unwritten. -/
theorem writeToFile_two_outcomes (be : Bool) (img : DNGImage) (en : Bool) :
    (∃ bs, (DNGWriter.WriteToFile be img en).buffer = some bs ∧
      (DNGWriter.WriteToFile be img en).countOut = some bs.length ∧
      (DNGWriter.WriteToFile be img en).errOut = none)
    ∨ ((DNGWriter.WriteToFile be img en).buffer = none ∧
      (DNGWriter.WriteToFile be img en).countOut = none ∧
      (en = true → ∃ s, (DNGWriter.WriteToFile be img en).errOut = some s ∧ s.length ≠ 0)) := by
  by_cases h1 : img.WriteDataToStream.1 = true
  · by_cases h2 : (DNGImage.WriteIFDToStream 0 img.data_strip_offset
        img.WriteDataToStream.2.1).1 = true
    · left
      refine ⟨writeTIFFVersionHeader be ++ write4 be (u32 (kHeaderSize + img.data_os.length)) ++
        img.WriteDataToStream.2.2 ++
        (DNGImage.WriteIFDToStream 0 img.data_strip_offset img.WriteDataToStream.2.1).2.2 ++
        [0, 0, 0, 0], ?_, ?_, ?_⟩ <;>
        simp [DNGWriter.WriteToFile, h1, h2]
    · right
      refine ⟨?_, ?_, ?_⟩
      · simp [DNGWriter.WriteToFile, h1, h2]
      · simp [DNGWriter.WriteToFile, h1, h2]
      · intro hen
        refine ⟨"Failed to write IFD: " ++
          (DNGImage.WriteIFDToStream 0 img.data_strip_offset img.WriteDataToStream.2.1).2.1.err,
          ?_, ?_⟩
        · simp [DNGWriter.WriteToFile, h1, h2, hen]
        · rw [String.length_append]
          have hlen : ("Failed to write IFD: ").length = 21 := rfl
          omega
  · right
    refine ⟨?_, ?_, ?_⟩
    · simp [DNGWriter.WriteToFile, h1]
    · simp [DNGWriter.WriteToFile, h1]
    · intro hen
      refine ⟨"Failed to write image data: " ++ img.WriteDataToStream.2.1.err, ?_, ?_⟩
      · simp [DNGWriter.WriteToFile, h1, hen]
      · rw [String.length_append]
        have hlen : ("Failed to write image data: ").length = 28 := rfl
        omega

theorem typeSize_2 : typeSize 2 = 1 := rfl
theorem typeSize_3 : typeSize 3 = 2 := rfl
theorem typeSize_4 : typeSize 4 = 4 := rfl

theorem applyOp_spp (img : DNGImage) (op : DNGOp) :
    (applyOp img op).samples_per_pixels =
      (match op with
      | DNGOp.samplesPerPixel v => if v ≤ 4 then v else img.samples_per_pixels
      | _ => img.samples_per_pixels) := by
  cases op with
  | samplesPerPixel v =>
    simp only [applyOp, DNGImage.SetSamplesPerPixel]
    by_cases h4 : 4 < v
    · rw [if_pos h4]
      simp only
      rw [if_neg (by omega)]
    · rw [if_neg h4]
      simp only [WriteTIFFTag, typeSize_3]
      norm_num
      rw [if_pos (by omega)]
  | bitsPerSample =>
    simp only [applyOp, DNGImage.SetBitsPerSample]
    by_cases h0 : img.samples_per_pixels = 0
    · rw [if_pos h0]
    · rw [if_neg h0]
      by_cases h1 : img.samples_per_pixels ≠ 1
      · rw [if_pos h1]
      · rw [if_neg h1]
        simp only [WriteTIFFTag, typeSize_3]
        norm_num
  | imageDescription s =>
    simp only [applyOp, DNGImage.SetImageDescription]
    by_cases hc1 : u32 (s.length + 1) < 2
    · rw [if_pos hc1]
    · rw [if_neg hc1]
      by_cases hc2 : 1048576 < u32 (s.length + 1)
      · rw [if_pos hc2]
      · rw [if_neg hc2]
        simp only [WriteTIFFTag, typeSize_2]
        by_cases hc3 : 4 < u32 (s.length + 1) * 1
        · rw [if_pos hc3]
          simp
        · rw [if_neg hc3]
          simp
  | uniqueCameraModel s =>
    simp only [applyOp, DNGImage.SetUniqueCameraModel]
    by_cases hc1 : u32 (s.length + 1) < 2
    · rw [if_pos hc1]
    · rw [if_neg hc1]
      by_cases hc2 : 1048576 < u32 (s.length + 1)
      · rw [if_pos hc2]
      · rw [if_neg hc2]
        simp only [WriteTIFFTag, typeSize_2]
        by_cases hc3 : 4 < u32 (s.length + 1) * 1
        · rw [if_pos hc3]
          simp
        · rw [if_neg hc3]
          simp
  | software s =>
    simp only [applyOp, DNGImage.SetSoftware]
    by_cases hc1 : u32 (s.length + 1) < 2
    · rw [if_pos hc1]
    · rw [if_neg hc1]
      by_cases hc2 : 4096 < u32 (s.length + 1)
      · rw [if_pos hc2]
      · rw [if_neg hc2]
        simp only [WriteTIFFTag, typeSize_2]
        by_cases hc3 : 4 < u32 (s.length + 1) * 1
        · rw [if_pos hc3]
          simp
        · rw [if_neg hc3]
          simp
  | imageData b =>
    simp only [applyOp, DNGImage.SetImageData]
    by_cases hb : b.length < 1
    · rw [if_pos hb]
    · rw [if_neg hb]
      simp only [WriteTIFFTag, typeSize_4]
      norm_num

theorem foldl_spp (ops : List DNGOp) :
    ∀ img : DNGImage, (List.foldl applyOp img ops).samples_per_pixels =
      List.foldl
        (fun acc op => match op with
          | DNGOp.samplesPerPixel v => if v ≤ 4 then v else acc
          | _ => acc) img.samples_per_pixels ops := by
  induction ops with
  | nil => intro img; rfl
  | cons op rest ih =>
    intro img
    rw [List.foldl_cons, List.foldl_cons, ih (applyOp img op)]
    congr 1
    rw [applyOp_spp]

theorem runOps_spp (ops : List DNGOp) : (runOps ops).samples_per_pixels = lastSppVal ops := by
  rw [runOps, lastSppVal, foldl_spp]
  rfl

/-- C8: after any history of setter calls on a fresh DNGImage,
SetBitsPerSample succeeds exactly when the samples-per-pixel in effect (the
value recorded by the last successful SetSamplesPerPixel call) is 1, and on
success the recorded bits-per-sample list is the hard-coded [16]. -/
theorem setBitsPerSample_requires_spp_one (ops : List DNGOp) :
    ((runOps ops).SetBitsPerSample.1 = true ↔ lastSppVal ops = 1) ∧
    ((runOps ops).SetBitsPerSample.2.bits_per_samples =
      (if lastSppVal ops = 1 then [16] else (runOps ops).bits_per_samples)) := by
  rw [← runOps_spp]
  rw [DNGImage.SetBitsPerSample]
  by_cases h0 : (runOps ops).samples_per_pixels = 0
  · rw [if_pos h0]
    simp [h0]
  · rw [if_neg h0]
    by_cases h1 : (runOps ops).samples_per_pixels ≠ 1
    · rw [if_pos h1]
      constructor
      · simp only [Bool.false_eq_true, false_iff]
        exact h1
      · rw [if_neg h1]
    · rw [if_neg h1]
      rw [not_not] at h1
      simp only [WriteTIFFTag, typeSize_3]
      norm_num
      rw [if_pos h1]
      simp [h1]

theorem sppMsg_pos (v : Nat) : (sppMsg v).length ≠ 0 := by
  rw [sppMsg]
  rw [String.length_append, String.length_append]
  have h : ("Samples per pixel must be less than or equal to 4, but got ").length = 59 := rfl
  omega

theorem setSamplesPerPixel_spec_aux (img : DNGImage) (v : Nat) :
    img.SetSamplesPerPixel v =
      (if 4 < v then (false, { img with err := img.err ++ sppMsg v })
       else (true, { img with
         ifd_tags := img.ifd_tags ++ [(⟨277, 3, 1, v % 65536⟩ : IFDTag)],
         samples_per_pixels := v,
         num_fields := img.num_fields + 1 })) := by
  by_cases h4 : 4 < v
  · rw [DNGImage.SetSamplesPerPixel, if_pos h4, if_pos h4]
  · rw [DNGImage.SetSamplesPerPixel, if_neg h4, if_neg h4]
    simp only [WriteTIFFTag, typeSize_3]
    norm_num
    refine ⟨rfl, rfl, rfl, ?_⟩
    omega

theorem writeDataToStream_spp0 (img : DNGImage) (h : img.samples_per_pixels = 0) :
    img.WriteDataToStream.1 = false := by
  rw [DNGImage.WriteDataToStream]
  repeat' split
  all_goals rfl

theorem u32_lt (x : Nat) : u32 x < 4294967296 := Nat.mod_lt x (by norm_num)

theorem u32_small (x : Nat) (h : x < 4294967296) : u32 x = x := Nat.mod_eq_of_lt h

theorem setImageDescription_bounds (img : DNGImage) (s : List Nat) :
    (if u32 (s.length + 1) < 2 ∨ 1048576 < u32 (s.length + 1)
     then img.SetImageDescription s = (false, img)
     else (img.SetImageDescription s).1 = true ∧
       ∃ v, (img.SetImageDescription s).2.ifd_tags =
         img.ifd_tags ++ [(⟨270, 2, u32 (s.length + 1), v⟩ : IFDTag)]) := by
  split
  · rename_i hcond
    rw [DNGImage.SetImageDescription]
    rcases hcond with hc | hc
    · rw [if_pos hc]
    · rw [if_neg (by omega), if_pos hc]
  · rename_i hcond
    push_neg at hcond
    obtain ⟨hc1, hc2⟩ := hcond
    rw [DNGImage.SetImageDescription, if_neg (by omega), if_neg (by omega)]
    simp only [WriteTIFFTag, typeSize_2, Nat.mul_one]
    by_cases h4 : 4 < u32 (s.length + 1)
    · rw [if_pos h4]
      simp only
      refine ⟨rfl, u32 (img.data_os.length + kHeaderSize), ?_⟩
      simp only [u16, u32]
      norm_num
    · rw [if_neg h4]
      simp only
      refine ⟨rfl,
        (if u32 (s.length + 1) = 1 then (s ++ [0]).getD 0 0
         else if u32 (s.length + 1) = 2 then (s ++ [0]).getD 0 0 + 256 * (s ++ [0]).getD 1 0
         else if u32 (s.length + 1) = 4 then
           (s ++ [0]).getD 0 0 + 256 * (s ++ [0]).getD 1 0 + 65536 * (s ++ [0]).getD 2 0 +
             16777216 * (s ++ [0]).getD 3 0
         else 0), ?_⟩
      simp only [u16, u32]
      norm_num

theorem setUniqueCameraModel_bounds (img : DNGImage) (s : List Nat) :
    (if u32 (s.length + 1) < 2 ∨ 1048576 < u32 (s.length + 1)
     then img.SetUniqueCameraModel s = (false, img)
     else (img.SetUniqueCameraModel s).1 = true ∧
       ∃ v, (img.SetUniqueCameraModel s).2.ifd_tags =
         img.ifd_tags ++ [(⟨50708, 2, u32 (s.length + 1), v⟩ : IFDTag)]) := by
  split
  · rename_i hcond
    rw [DNGImage.SetUniqueCameraModel]
    rcases hcond with hc | hc
    · rw [if_pos hc]
    · rw [if_neg (by omega), if_pos hc]
  · rename_i hcond
    push_neg at hcond
    obtain ⟨hc1, hc2⟩ := hcond
    rw [DNGImage.SetUniqueCameraModel, if_neg (by omega), if_neg (by omega)]
    simp only [WriteTIFFTag, typeSize_2, Nat.mul_one]
    by_cases h4 : 4 < u32 (s.length + 1)
    · rw [if_pos h4]
      simp only
      refine ⟨rfl, u32 (img.data_os.length + kHeaderSize), ?_⟩
      simp only [u16, u32]
      norm_num
    · rw [if_neg h4]
      simp only
      refine ⟨rfl,
        (if u32 (s.length + 1) = 1 then (s ++ [0]).getD 0 0
         else if u32 (s.length + 1) = 2 then (s ++ [0]).getD 0 0 + 256 * (s ++ [0]).getD 1 0
         else if u32 (s.length + 1) = 4 then
           (s ++ [0]).getD 0 0 + 256 * (s ++ [0]).getD 1 0 + 65536 * (s ++ [0]).getD 2 0 +
             16777216 * (s ++ [0]).getD 3 0
         else 0), ?_⟩
      simp only [u16, u32]
      norm_num

theorem setSoftware_bounds (img : DNGImage) (s : List Nat) :
    (if u32 (s.length + 1) < 2 ∨ 4096 < u32 (s.length + 1)
     then img.SetSoftware s = (false, img)
     else (img.SetSoftware s).1 = true ∧
       ∃ v, (img.SetSoftware s).2.ifd_tags =
         img.ifd_tags ++ [(⟨305, 2, u32 (s.length + 1), v⟩ : IFDTag)]) := by
  split
  · rename_i hcond
    rw [DNGImage.SetSoftware]
    rcases hcond with hc | hc
    · rw [if_pos hc]
    · rw [if_neg (by omega), if_pos hc]
  · rename_i hcond
    push_neg at hcond
    obtain ⟨hc1, hc2⟩ := hcond
    rw [DNGImage.SetSoftware, if_neg (by omega), if_neg (by omega)]
    simp only [WriteTIFFTag, typeSize_2, Nat.mul_one]
    by_cases h4 : 4 < u32 (s.length + 1)
    · rw [if_pos h4]
      simp only
      refine ⟨rfl, u32 (img.data_os.length + kHeaderSize), ?_⟩
      simp only [u16, u32]
      norm_num
    · rw [if_neg h4]
      simp only
      refine ⟨rfl,
        (if u32 (s.length + 1) = 1 then (s ++ [0]).getD 0 0
         else if u32 (s.length + 1) = 2 then (s ++ [0]).getD 0 0 + 256 * (s ++ [0]).getD 1 0
         else if u32 (s.length + 1) = 4 then
           (s ++ [0]).getD 0 0 + 256 * (s ++ [0]).getD 1 0 + 65536 * (s ++ [0]).getD 2 0 +
             16777216 * (s ++ [0]).getD 3 0
         else 0), ?_⟩
      simp only [u16, u32]
      norm_num

/-- C10 counterexample: the claim says SetImageDescription must return false
whenever length(s) + 1 exceeds 1024*1024, but for a string of length 2^32 + 1
the 32-bit cast wraps the count to 2 and the call returns true. -/
theorem ascii_setters_claim_false :
    1048576 < hugeAscii.length + 1 ∧ (DNGImage.init.SetImageDescription hugeAscii).1 = true := by
  have hlen : hugeAscii.length = 4294967297 := by
    rw [hugeAscii, List.length_replicate]
  constructor
  · rw [hlen]
    norm_num
  · rw [DNGImage.SetImageDescription]
    have hc : u32 (hugeAscii.length + 1) = 2 := by
      rw [hlen, u32]
    rw [hc]
    rw [if_neg (by norm_num), if_neg (by norm_num)]
    rfl


/-- C2: every container that opens successfully (fast path or recovery path)
has a strictly ascending, duplicate-free frame timestamp sequence, and a
duplicate Frame timestamp among the index entries at open time makes open
fail with CorruptContainer instead of keeping one of the two entries. -/
theorem frames_sorted_and_dup_corrupt :
    (∀ (bs : List Nat) (d : Decoder) (rec : Bool),
      openContainer bs = Except.ok (d, rec) →
      List.Chain' (· < ·) (getFrames d) ∧ (getFrames d).Nodup) ∧
    (∀ bs : List Nat,
      ¬ (((indexEntries bs).filter (fun e => e.kind == RecordKind.frame)).map
          (fun e => e.timestamp)).Nodup →
      openContainer bs = Except.error DecErr.corruptContainer) :=
  ⟨frames_sorted_of_open, open_dup_rejected⟩

/-- C4: loadFrame on a timestamp absent from getFrames always fails with
FrameNotFound, an error kind distinct from every other kind of the taxonomy,
and returns no data (the error value carries no buffer, so nothing from a
previous call can be returned). -/
theorem loadFrame_notFound (d : Decoder) (t : Int) (w h ct : Nat)
    (hni : t ∉ getFrames d) :
    loadFrame d t w h ct = Except.error DecErr.frameNotFound ∧
    DecErr.frameNotFound ≠ DecErr.ioError ∧
    DecErr.frameNotFound ≠ DecErr.corruptContainer ∧
    DecErr.frameNotFound ≠ DecErr.unsupportedCodec ∧
    DecErr.frameNotFound ≠ DecErr.codecFailure ∧
    DecErr.frameNotFound ≠ DecErr.sizeMismatch :=
  ⟨loadFrame_notFound_aux d t w h ct hni, by decide, by decide, by decide, by decide, by decide⟩

theorem loadFrame_notFound_witness :
    (5 : Int) ∉ getFrames dW ∧
    (loadFrame dW 5 2 2 0 = Except.error DecErr.frameNotFound ∧
    DecErr.frameNotFound ≠ DecErr.ioError ∧
    DecErr.frameNotFound ≠ DecErr.corruptContainer ∧
    DecErr.frameNotFound ≠ DecErr.unsupportedCodec ∧
    DecErr.frameNotFound ≠ DecErr.codecFailure ∧
    DecErr.frameNotFound ≠ DecErr.sizeMismatch) :=
  ⟨by decide, loadFrame_notFound dW 5 2 2 0 (by decide)⟩

/-- C5: loadFrameMetadata succeeds on every timestamp of the frame index,
returning an optional text whose none value (not an error) means the frame
has no metadata record, and fails with FrameNotFound exactly when the
timestamp is not in the frame index. -/
theorem loadFrameMetadata_discipline :
    (∀ (d : Decoder) (t : Int), t ∈ getFrames d →
      loadFrameMetadata d t = Except.ok ((metaFor d t).map (metaTextOf d)) ∧
      (((metaFor d t).map (metaTextOf d)).isNone ↔ ∀ e ∈ d.metaEntries, e.timestamp ≠ t)) ∧
    (∀ (d : Decoder) (t : Int), t ∉ getFrames d →
      loadFrameMetadata d t = Except.error DecErr.frameNotFound) :=
  ⟨loadFrameMetadata_in, loadFrameMetadata_notFound⟩

/-- C6: each Audio Chunk Loader cursor is exclusively its own state:
advancing one loader of a session never changes another loader, creating a
new loader leaves every existing loader untouched, and next never rewinds a
cursor, so a cursor position restarts only with a freshly created loader. -/
theorem loader_cursor_exclusive :
    (∀ (s : AudioSession) (i j : Nat), i ≠ j →
      (nextOnSession s i).loaders[j]? = s.loaders[j]?) ∧
    (∀ (s : AudioSession) (j : Nat), j < s.loaders.length →
      (mkLoader s).loaders[j]? = s.loaders[j]?) ∧
    (∀ (s : AudioSession) (i : Nat) (l l2 : LoaderState),
      s.loaders[i]? = some l → (nextOnSession s i).loaders[i]? = some l2 →
      l.cursor ≤ l2.cursor) :=
  ⟨nextOnSession_other, mkLoader_keeps, nextOnSession_mono⟩

/-- C9: SetSamplesPerPixel rejects every value above 4, appending a non-empty
diagnostic to the error string and writing no tag; every value up to 4,
including 0, writes the SAMPLES_PER_PIXEL tag, records the value and returns
true; a zero samples-per-pixel is only rejected later, by WriteDataToStream. -/
theorem setSamplesPerPixel_range :
    (∀ (img : DNGImage) (v : Nat),
      img.SetSamplesPerPixel v =
        (if 4 < v then (false, { img with err := img.err ++ sppMsg v })
         else (true, { img with
           ifd_tags := img.ifd_tags ++ [(⟨277, 3, 1, v % 65536⟩ : IFDTag)],
           samples_per_pixels := v,
           num_fields := img.num_fields + 1 }))) ∧
    (∀ v : Nat, (sppMsg v).length ≠ 0) ∧
    (∀ img : DNGImage, img.samples_per_pixels = 0 → img.WriteDataToStream.1 = false) :=
  ⟨setSamplesPerPixel_spec_aux, sppMsg_pos, writeDataToStream_spp0⟩

/-- C10 (amended): each free-form text setter decides on the 32-bit cast
c = (length(s) + 1) mod 2^32 of the source: it returns false and writes no
tag when c < 2 or c exceeds its bound (1024*1024 for SetImageDescription and
SetUniqueCameraModel, 4096 for SetSoftware), and otherwise writes its ASCII
tag with count c (for strings shorter than 2^32 this counts the trailing
NUL) and returns true. -/
theorem ascii_setters_range :
    (∀ (img : DNGImage) (s : List Nat),
      if u32 (s.length + 1) < 2 ∨ 1048576 < u32 (s.length + 1)
      then img.SetImageDescription s = (false, img)
      else (img.SetImageDescription s).1 = true ∧
        ∃ v, (img.SetImageDescription s).2.ifd_tags =
          img.ifd_tags ++ [(⟨270, 2, u32 (s.length + 1), v⟩ : IFDTag)]) ∧
    (∀ (img : DNGImage) (s : List Nat),
      if u32 (s.length + 1) < 2 ∨ 1048576 < u32 (s.length + 1)
      then img.SetUniqueCameraModel s = (false, img)
      else (img.SetUniqueCameraModel s).1 = true ∧
        ∃ v, (img.SetUniqueCameraModel s).2.ifd_tags =
          img.ifd_tags ++ [(⟨50708, 2, u32 (s.length + 1), v⟩ : IFDTag)]) ∧
    (∀ (img : DNGImage) (s : List Nat),
      if u32 (s.length + 1) < 2 ∨ 4096 < u32 (s.length + 1)
      then img.SetSoftware s = (false, img)
      else (img.SetSoftware s).1 = true ∧
        ∃ v, (img.SetSoftware s).2.ifd_tags =
          img.ifd_tags ++ [(⟨305, 2, u32 (s.length + 1), v⟩ : IFDTag)]) :=
  ⟨setImageDescription_bounds, setUniqueCameraModel_bounds, setSoftware_bounds⟩
